import Mathlib

/-!
Verification of the scheduling/daemon subsystem of the auto-post repository.

The embedding mirrors `src/db.py` and `src/scheduler.py`:
  - a `Post` record mirrors a row of the `posts` table; the Post Store is a
    list of rows; SQL `SELECT ... WHERE id = x` is `List.find?`, the
    four-field `UPDATE` of `update_post_status` is a `List.map`;
  - timestamps (naive local datetimes, compared lexicographically by
    Python's `datetime`) are embedded as `Nat` ranks via `minuteRank`,
    which is strictly monotone in the lexicographic order of
    (year, month, day, hour, minute);
  - the APScheduler job registry is a list of `JobEntry` keyed by job id
    (`scheduler.get_job` is `List.find?`, `scheduler.add_job` conses);
  - the Publisher (`fb_poster.publish_text_post`) is an external
    collaborator passed as a function from (page id, token, message) to
    an outcome: `Except.error e` models a raised exception with message
    `e`, and `Except.ok oid` models a 2xx response whose `result.get("id")`
    is `oid` (an `Option`, since the JSON body may lack an `"id"` key);
  - database reads performed inside an operation (`get_config`,
    `os.getenv`, `list_posts`) are passed in as the values they return at
    that moment, so "read fresh at each execution" is expressed by the
    argument being the execution-time value.
-/

namespace AutoPost

/-- A row of the `posts` table (db.py `init_db`): id, message,
scheduled_time, status, created_at, sent_at, fb_post_id, error.
Timestamps are `Nat` ranks of naive local datetimes; nullable columns are
`Option`. The status column is a string (`'pending'`, `'sent'`,
`'failed'`). -/
structure Post where
  id : String
  message : String
  scheduled_time : Nat
  status : String
  created_at : Nat
  sent_at : Option Nat
  fb_post_id : Option String
  error : Option String
deriving DecidableEq, Repr

/-- The Post Store: the rows of the `posts` table. -/
abbrev Store := List Post

/-- db.py `get_post`: `SELECT * FROM posts WHERE id = %s` on the
primary key, `None` when no row matches. -/
def get_post (store : Store) (post_id : String) : Option Post :=
  store.find? (fun p => p.id == post_id)

/-- db.py `update_post_status`: `UPDATE posts SET status = %s, sent_at = %s,
fb_post_id = %s, error = %s WHERE id = %s`. All four columns are written
unconditionally; the Python defaults make every argument not supplied by
the caller `None` (here `none`). -/
def update_post_status (store : Store) (post_id : String) (status : String)
    (sent_at : Option Nat) (fb_post_id : Option String)
    (error : Option String) : Store :=
  store.map fun p =>
    if p.id == post_id then
      { p with status := status, sent_at := sent_at,
               fb_post_id := fb_post_id, error := error }
    else p

/-- Python truthiness of an optional string: `None` and `""` are falsy. -/
def truthy : Option String → Bool
  | none => false
  | some s => !(s == "")

/-- db.py `get_active_access_token`: the config-store value under
`fb_page_access_token` when truthy, else `os.getenv("FB_ACCESS_TOKEN")`.
`cfg` is the config-store read at call time, `env` the environment
variable. -/
def get_active_access_token (cfg env : Option String) : Option String :=
  if truthy cfg then cfg else env

/-- scheduler.py line 57: `current_token = get_active_access_token() or
access_token` — the Python `or` falls through on `None` and on the empty
string. -/
def resolve_credential (cfg env : Option String) (access_token : String) :
    String :=
  match get_active_access_token cfg env with
  | some t => if t == "" then access_token else t
  | none => access_token

/-- Outcome of `publish_text_post` as observed by `_execute_post`:
`Except.error e` is a raised exception with message text `e`;
`Except.ok oid` is a success whose `result.get("id")` is `oid`. -/
abbrev PubOutcome := Except String (Option String)

/-- A Publisher: page id, access token, message to outcome. -/
abbrev Publisher := String → String → String → PubOutcome

/-- scheduler.py `_execute_post`: re-read the post; if absent or no longer
`pending`, return without writing; otherwise resolve the credential,
publish, and record the outcome through `update_post_status` (the
`except` block catches the publish failure, so no exception escapes —
the function is total). `now` is the rank of `datetime.now()` at
execution time, `cfg`/`env` the config-store and environment reads. -/
def _execute_post (store : Store) (post_id page_id access_token : String)
    (cfg env : Option String) (publish : Publisher) (now : Nat) : Store :=
  match get_post store post_id with
  | none => store
  | some post =>
    if post.status != "pending" then store
    else
      let current_token := resolve_credential cfg env access_token
      match publish page_id current_token post.message with
      | Except.ok oid =>
          update_post_status store post_id "sent" (some now) oid none
      | Except.error e =>
          update_post_status store post_id "failed" none none (some e)

/-- An APScheduler job as registered by `_register_pending_posts`: the
job id `"post_" ++ post id`, the one-shot `run_date`, and the callback
arguments `[post id, page_id, access_token]`. -/
structure JobEntry where
  job_id : String
  run_date : Nat
  post_id : String
  page_id : String
  access_token : String
deriving DecidableEq, Repr

/-- The Job Registry: the jobs currently held by the APScheduler. -/
abbrev Registry := List JobEntry

/-- APScheduler `scheduler.get_job(job_id)`: lookup by job id. -/
def get_job (sched : Registry) (job_id : String) : Option JobEntry :=
  sched.find? (fun j => j.job_id == job_id)

/-- APScheduler `scheduler.add_job(..., id=job_id)`: insert a new job.
`_register_pending_posts` only calls it after `get_job` returned nothing. -/
def add_job (sched : Registry) (j : JobEntry) : Registry :=
  j :: sched

/-- scheduler.py `_register_pending_posts` (Reconcile): walk the `pending`
list (the `list_posts(status_filter="pending")` result, passed in as the
value the store returns); skip posts whose job id is already registered;
otherwise register a one-shot job at `now` when overdue
(`scheduled_dt <= now_naive_tw`) and at `scheduled_time` otherwise,
and count it. Returns the new registry and the count of newly
registered jobs. -/
def _register_pending_posts (sched : Registry) (page_id access_token : String)
    (pending : List Post) (now : Nat) : Registry × Nat :=
  match pending with
  | [] => (sched, 0)
  | post :: rest =>
    let job_id := "post_" ++ post.id
    match get_job sched job_id with
    | some _ => _register_pending_posts sched page_id access_token rest now
    | none =>
      let run_date := if post.scheduled_time ≤ now then now
                      else post.scheduled_time
      let sched' := add_job sched
        { job_id := job_id, run_date := run_date, post_id := post.id,
          page_id := page_id, access_token := access_token }
      let r := _register_pending_posts sched' page_id access_token rest now
      (r.1, r.2 + 1)

/-- Report returned by `daemon_status`: the dict
`{"running": bool, "pid": int or None}`. -/
structure DaemonReport where
  running : Bool
  pid : Option Nat
deriving DecidableEq, Repr

/-- scheduler.py `daemon_status`: `marker` is the PID file content
(`none` when the file is absent), `alive` is the `os.kill(pid, 0)` probe
(`true` when it does not raise). Returns the marker state after the call
and the report: absent marker reports stopped; a live recorded process
reports running with its pid and keeps the marker; a dead one has its
stale marker unlinked and reports stopped. -/
def daemon_status (marker : Option Nat) (alive : Nat → Bool) :
    Option Nat × DaemonReport :=
  match marker with
  | none => (none, { running := false, pid := none })
  | some pid =>
    if alive pid then (some pid, { running := true, pid := some pid })
    else (none, { running := false, pid := none })

/-- The two `ValueError` raises of db.py `add_post`: unparseable
scheduled time, or a scheduled time not strictly in the future. -/
inductive ValidationError
  | badFormat (input : String)
  | pastTime
deriving DecidableEq, Repr

/-- Rank of a naive local datetime truncated to minutes. Strictly
monotone in the lexicographic order of (year, month, day, hour, minute)
given the calendar bounds month ≤ 12, day ≤ 31, hour ≤ 23, minute ≤ 59,
so `≤` on ranks is Python's `datetime` comparison. -/
def minuteRank (y mo d h mi : Nat) : Nat :=
  (((y * 13 + mo) * 32 + d) * 24 + h) * 60 + mi

/-- Gregorian leap year, as in Python's `calendar`/`datetime`. -/
def isLeap (y : Nat) : Bool :=
  (y % 4 == 0 && y % 100 != 0) || y % 400 == 0

/-- Days in a month, used by the `datetime` constructor's day check. -/
def days_in_month (y mo : Nat) : Nat :=
  if mo == 2 then (if isLeap y then 29 else 28)
  else if mo == 4 || mo == 6 || mo == 9 || mo == 11 then 30
  else 31

/-- The `"/"` → `"-"` normalization of db.py `add_post`
(`scheduled_time_str.replace("/", "-")`), per character. -/
def replaceSlash (c : Char) : Char :=
  if c == '/' then '-' else c

/-- Numeric value of an ASCII digit character. -/
def digitVal (c : Char) : Nat :=
  c.toNat - 48

/-- Python's regex `\s` class on strings — the characters `str.isspace`
accepts: ASCII whitespace and separators (9–13, 28–31, 32), NEL (133),
NBSP (160), Ogham space (5760), the general punctuation spaces
(8192–8202, 8232, 8233, 8239, 8287) and the ideographic space (12288). -/
def pyIsSpace (c : Char) : Bool :=
  (9 ≤ c.toNat && c.toNat ≤ 13) || (28 ≤ c.toNat && c.toNat ≤ 32) ||
  c.toNat == 133 || c.toNat == 160 || c.toNat == 5760 ||
  (8192 ≤ c.toNat && c.toNat ≤ 8202) || c.toNat == 8232 ||
  c.toNat == 8233 || c.toNat == 8239 || c.toNat == 8287 ||
  c.toNat == 12288

/-- CPython strptime directive `%Y`, compiled to the regex fragment
`\d\d\d\d`: exactly four digits. Each matcher returns the possible
(value, remaining input) pairs in the regex engine's backtracking
order. -/
def matchY : List Char → List (Nat × List Char)
  | a :: b :: c :: d :: rest =>
    if a.isDigit && b.isDigit && c.isDigit && d.isDigit then
      [(((digitVal a * 10 + digitVal b) * 10 + digitVal c) * 10 +
          digitVal d, rest)]
    else []
  | _ => []

/-- CPython strptime directive `%m`, compiled to
`1[0-2]|0[1-9]|[1-9]`. -/
def matchMonth (cs : List Char) : List (Nat × List Char) :=
  (match cs with
   | '1' :: b :: rest =>
     if 48 ≤ b.toNat ∧ b.toNat ≤ 50 then [(10 + digitVal b, rest)] else []
   | _ => []) ++
  (match cs with
   | '0' :: b :: rest =>
     if 49 ≤ b.toNat ∧ b.toNat ≤ 57 then [(digitVal b, rest)] else []
   | _ => []) ++
  (match cs with
   | a :: rest =>
     if 49 ≤ a.toNat ∧ a.toNat ≤ 57 then [(digitVal a, rest)] else []
   | _ => [])

/-- CPython strptime directive `%d`, compiled to
`3[01]|[12]\d|0[1-9]|[1-9]| [1-9]` — note the final alternative accepts
a space-padded single-digit day. -/
def matchDay (cs : List Char) : List (Nat × List Char) :=
  (match cs with
   | '3' :: b :: rest =>
     if 48 ≤ b.toNat ∧ b.toNat ≤ 49 then [(30 + digitVal b, rest)] else []
   | _ => []) ++
  (match cs with
   | a :: b :: rest =>
     if (a = '1' ∨ a = '2') ∧ b.isDigit then
       [(digitVal a * 10 + digitVal b, rest)]
     else []
   | _ => []) ++
  (match cs with
   | '0' :: b :: rest =>
     if 49 ≤ b.toNat ∧ b.toNat ≤ 57 then [(digitVal b, rest)] else []
   | _ => []) ++
  (match cs with
   | a :: rest =>
     if 49 ≤ a.toNat ∧ a.toNat ≤ 57 then [(digitVal a, rest)] else []
   | _ => []) ++
  (match cs with
   | ' ' :: b :: rest =>
     if 49 ≤ b.toNat ∧ b.toNat ≤ 57 then [(digitVal b, rest)] else []
   | _ => [])

/-- CPython strptime directive `%H`, compiled to `2[0-3]|[0-1]\d|\d`. -/
def matchHour (cs : List Char) : List (Nat × List Char) :=
  (match cs with
   | '2' :: b :: rest =>
     if 48 ≤ b.toNat ∧ b.toNat ≤ 51 then [(20 + digitVal b, rest)] else []
   | _ => []) ++
  (match cs with
   | a :: b :: rest =>
     if (a = '0' ∨ a = '1') ∧ b.isDigit then
       [(digitVal a * 10 + digitVal b, rest)]
     else []
   | _ => []) ++
  (match cs with
   | a :: rest => if a.isDigit then [(digitVal a, rest)] else []
   | _ => [])

/-- CPython strptime directive `%M`, compiled to `[0-5]\d|\d`. -/
def matchMinute (cs : List Char) : List (Nat × List Char) :=
  (match cs with
   | a :: b :: rest =>
     if 48 ≤ a.toNat ∧ a.toNat ≤ 53 ∧ b.isDigit then
       [(digitVal a * 10 + digitVal b, rest)]
     else []
   | _ => []) ++
  (match cs with
   | a :: rest => if a.isDigit then [(digitVal a, rest)] else []
   | _ => [])

/-- A whitespace run in a strptime format, compiled to the greedy
regex fragment `\s+`: the possible remaining inputs after consuming one
or more leading whitespace characters, longest consumption first. -/
def matchSpaces : List Char → List (List Char)
  | [] => []
  | c :: cs =>
    if pyIsSpace c then matchSpaces cs ++ [cs] else []

/-- A literal character in the compiled strptime pattern. -/
def matchLit (c : Char) : List Char → List (List Char)
  | x :: rest => if x = c then [rest] else []
  | [] => []

/-- All anchored full matches of the regex CPython compiles for the
format `"%Y-%m-%d %H:%M"` —
`\d\d\d\d-(1[0-2]|0[1-9]|[1-9])-(3[01]|[12]\d|0[1-9]|[1-9]| [1-9])\s+(2[0-3]|[0-1]\d|\d):([0-5]\d|\d)`
— as (year, month, day, hour, minute) tuples, in the engine's
backtracking order; `_strptime` rejects a match that does not consume
the entire string (unconverted data remains). -/
def strptimeMatches (cs : List Char) : List (Nat × Nat × Nat × Nat × Nat) :=
  (matchY cs).flatMap (fun yr =>
  (matchLit '-' yr.2).flatMap (fun r2 =>
  (matchMonth r2).flatMap (fun mor =>
  (matchLit '-' mor.2).flatMap (fun r4 =>
  (matchDay r4).flatMap (fun dr =>
  (matchSpaces dr.2).flatMap (fun r6 =>
  (matchHour r6).flatMap (fun hr =>
  (matchLit ':' hr.2).flatMap (fun r8 =>
  (matchMinute r8).flatMap (fun mir =>
  if mir.2 = [] then [(yr.1, mor.1, dr.1, hr.1, mir.1)] else [])))))))))

/-- Model of `datetime.strptime(normalized, "%Y-%m-%d %H:%M")` followed
by the `datetime` constructor, after the `"/"` → `"-"` normalization:
the first full regex match (backtracking order) yields the field values,
and the constructor then requires year ≥ 1 (year ≤ 9999 is forced by the
four-digit `%Y`) and a day within the month; the regex alternatives
already confine month to 1–12, day to 1–31, hour to 0–23 and minute to
0–59. Returns the `minuteRank` of the parsed time, `none` where
`strptime` or the constructor raises `ValueError`. Digits are modelled
as ASCII `0-9` (CPython's `\d` on strings additionally accepts a
non-ASCII Unicode decimal digit, which this model does not cover); the
whitespace class is Python's full `\s` set. -/
def parse_sched (s : String) : Option Nat :=
  match strptimeMatches (s.toList.map replaceSlash) with
  | [] => none
  | (y, mo, d, h, mi) :: _ =>
    if 1 ≤ y ∧ d ≤ days_in_month y mo then some (minuteRank y mo d h mi)
    else none

/-- db.py `add_post`: parse the scheduled time (raising `ValueError` on
bad format), reject times not strictly in the future, then insert a row
with status `'pending'` and NULL `sent_at`, `fb_post_id`, `error`, and
return the new row. `now` is the rank of `datetime.now()`, `post_id` the
generated `uuid4().hex[:8]`. -/
def add_post (store : Store) (message : String)
    (scheduled_time_str : String) (now : Nat) (post_id : String) :
    Except ValidationError (Store × Post) :=
  match parse_sched scheduled_time_str with
  | none => Except.error (ValidationError.badFormat scheduled_time_str)
  | some scheduled_dt =>
    if scheduled_dt ≤ now then Except.error ValidationError.pastTime
    else
      let post : Post :=
        { id := post_id, message := message,
          scheduled_time := scheduled_dt, status := "pending",
          created_at := now, sent_at := none, fb_post_id := none,
          error := none }
      Except.ok (post :: store, post)

/-- The per-record state invariant of the spec's data model: a `sent`
post has `sent_at` and `fb_post_id` populated and `error` unset, a
`failed` post has `error` populated and the other two unset, and a
`pending` post has none of the three populated. -/
def post_inv (p : Post) : Prop :=
  (p.status = "sent" →
    p.sent_at.isSome ∧ p.fb_post_id.isSome ∧ p.error = none) ∧
  (p.status = "failed" →
    p.error.isSome ∧ p.sent_at = none ∧ p.fb_post_id = none) ∧
  (p.status = "pending" →
    p.sent_at = none ∧ p.fb_post_id = none ∧ p.error = none)

instance (p : Post) : Decidable (post_inv p) := by
  unfold post_inv; infer_instance

/-- The store-level invariant: every row satisfies `post_inv`. -/
def store_inv (store : Store) : Prop :=
  ∀ p ∈ store, post_inv p

instance (store : Store) : Decidable (store_inv store) := by
  unfold store_inv; infer_instance

/-- A Publisher meeting the spec's contract: a success carries a remote
post id (`publish(...) -> remote_post_id`), so `result.get("id")` is
never `None` on the success path. -/
def publisher_contract (publish : Publisher) : Prop :=
  ∀ pg tk m oid, publish pg tk m = Except.ok oid → oid.isSome

/-! Helper lemmas about the store operations. -/

/-- Reading back the updated id after `update_post_status` yields the old
row with exactly the four written columns replaced. -/
theorem get_post_update_post_status (store : Store) (pid st : String)
    (sa : Option Nat) (fb : Option String) (er : Option String) :
    get_post (update_post_status store pid st sa fb er) pid =
      (get_post store pid).map (fun p =>
        { p with status := st, sent_at := sa, fb_post_id := fb,
                 error := er }) := by
  induction store with
  | nil => rfl
  | cons p rest ih =>
    by_cases h : p.id = pid
    · simp [get_post, update_post_status, List.find?_cons, h]
    · have hb : (p.id == pid) = false := by simp [h]
      simp only [get_post, update_post_status, List.map_cons,
        List.find?_cons, hb, if_false, Bool.false_eq_true] at ih ⊢
      exact ih

/-- Rows whose id differs from the updated one are untouched by
`update_post_status`. -/
theorem mem_update_post_status_other (store : Store) (pid st : String)
    (sa : Option Nat) (fb : Option String) (er : Option String)
    (p : Post) (hp : p ∈ store) (hne : p.id ≠ pid) :
    p ∈ update_post_status store pid st sa fb er := by
  unfold update_post_status
  refine List.mem_map.mpr ⟨p, hp, ?_⟩
  simp [hne]

/-- A concrete pending post, used to instantiate theorems. -/
def pendingPost : Post :=
  { id := "ab12cd34", message := "Hello", scheduled_time := 100,
    status := "pending", created_at := 1, sent_at := none,
    fb_post_id := none, error := none }

/-- A concrete post already sent, used to instantiate theorems. -/
def sentPost : Post :=
  { id := "ef56ab78", message := "Done", scheduled_time := 40,
    status := "sent", created_at := 1, sent_at := some 41,
    fb_post_id := some "777", error := none }

/-- C1: a post that is still `pending` at execution time is transitioned
by `_execute_post` on a successful publish to status `sent`, with
`sent_at` the current timestamp, `fb_post_id` the remote post id the
Publisher returned, and `error` unset (the five remaining columns are
unchanged). -/
theorem execute_post_success (store : Store)
    (post_id page_id access_token : String) (cfg env : Option String)
    (publish : Publisher) (now : Nat) (post : Post) (fbid : String)
    (hget : get_post store post_id = some post)
    (hpend : post.status = "pending")
    (hpub : publish page_id (resolve_credential cfg env access_token)
        post.message = Except.ok (some fbid)) :
    get_post
        (_execute_post store post_id page_id access_token cfg env publish
          now) post_id =
      some { post with status := "sent", sent_at := some now,
                       fb_post_id := some fbid, error := none } := by
  unfold _execute_post
  rw [hget]
  simp only [hpend, bne_self_eq_false, Bool.false_eq_true, if_false, hpub]
  rw [get_post_update_post_status, hget]
  rfl

/-- Witness for C1 at a concrete pending post and a publisher returning
remote id 999. -/
theorem execute_post_success_witness :
    get_post
        (_execute_post [pendingPost] "ab12cd34" "pg" "tok" none none
          (fun _ _ _ => Except.ok (some "999")) 120) "ab12cd34" =
      some { pendingPost with status := "sent", sent_at := some 120,
                              fb_post_id := some "999", error := none } :=
  execute_post_success [pendingPost] "ab12cd34" "pg" "tok" none none
    (fun _ _ _ => Except.ok (some "999")) 120 pendingPost "999"
    (by decide) (by decide) rfl

/-- C2: a post that is still `pending` at execution time is transitioned
by `_execute_post` on a failing publish to status `failed`, with `error`
the failure's message text and `sent_at`, `fb_post_id` unset; the failure
is caught inside the job body (`_execute_post` is a total function into
stores, so no exception escapes). -/
theorem execute_post_failure (store : Store)
    (post_id page_id access_token : String) (cfg env : Option String)
    (publish : Publisher) (now : Nat) (post : Post) (e : String)
    (hget : get_post store post_id = some post)
    (hpend : post.status = "pending")
    (hpub : publish page_id (resolve_credential cfg env access_token)
        post.message = Except.error e) :
    get_post
        (_execute_post store post_id page_id access_token cfg env publish
          now) post_id =
      some { post with status := "failed", sent_at := none,
                       fb_post_id := none, error := some e } := by
  unfold _execute_post
  rw [hget]
  simp only [hpend, bne_self_eq_false, Bool.false_eq_true, if_false, hpub]
  rw [get_post_update_post_status, hget]
  rfl

/-- Witness for C2 at a concrete pending post and a publisher raising
with message text boom. -/
theorem execute_post_failure_witness :
    get_post
        (_execute_post [pendingPost] "ab12cd34" "pg" "tok" none none
          (fun _ _ _ => Except.error "boom") 120) "ab12cd34" =
      some { pendingPost with status := "failed", sent_at := none,
                              fb_post_id := none, error := some "boom" } :=
  execute_post_failure [pendingPost] "ab12cd34" "pg" "tok" none none
    (fun _ _ _ => Except.error "boom") 120 pendingPost "boom"
    (by decide) (by decide) rfl

/-- C3: when the post is absent from the store, or its stored status is
no longer `pending`, `_execute_post` returns before any write: the store
is returned unchanged (so a post already `sent` keeps that status), and
no exception escapes since the function is total. -/
theorem execute_post_noop (store : Store)
    (post_id page_id access_token : String) (cfg env : Option String)
    (publish : Publisher) (now : Nat)
    (h : get_post store post_id = none ∨
         ∃ post, get_post store post_id = some post ∧
           post.status ≠ "pending") :
    _execute_post store post_id page_id access_token cfg env publish now =
      store := by
  unfold _execute_post
  rcases h with h | ⟨post, hget, hst⟩
  · rw [h]
  · rw [hget]
    simp [hst]

/-- Witness for C3: an id absent from the store, and separately a post
already `sent`, both leave the store unchanged. -/
theorem execute_post_noop_witness :
    _execute_post [sentPost] "zzzzzzzz" "pg" "tok" none none
        (fun _ _ _ => Except.ok (some "999")) 120 = [sentPost] ∧
    _execute_post [sentPost] "ef56ab78" "pg" "tok" none none
        (fun _ _ _ => Except.ok (some "999")) 120 = [sentPost] :=
  ⟨execute_post_noop [sentPost] "zzzzzzzz" "pg" "tok" none none
      (fun _ _ _ => Except.ok (some "999")) 120 (Or.inl (by decide)),
   execute_post_noop [sentPost] "ef56ab78" "pg" "tok" none none
      (fun _ _ _ => Except.ok (some "999")) 120
      (Or.inr ⟨sentPost, by decide, by decide⟩)⟩

/-- C10: `update_post_status` overwrites all four of status, sent_at,
fb_post_id and error of every row with the addressed id in one write —
each `Option` argument left at its `none` default is stored as absent,
clearing any previous value — while rows with any other id are kept
as they are; no condition on the row's current status is checked, so the
write also applies to posts already in a terminal status. -/
theorem update_post_status_spec (store : Store) (pid st : String)
    (sa : Option Nat) (fb : Option String) (er : Option String)
    (p : Post) (hp : p ∈ store) :
    (p.id = pid →
      { p with status := st, sent_at := sa, fb_post_id := fb,
               error := er } ∈ update_post_status store pid st sa fb er) ∧
    (p.id ≠ pid → p ∈ update_post_status store pid st sa fb er) ∧
    get_post (update_post_status store pid st sa fb er) pid =
      (get_post store pid).map (fun q =>
        { q with status := st, sent_at := sa, fb_post_id := fb,
                 error := er }) := by
  refine ⟨?_, ?_, get_post_update_post_status store pid st sa fb er⟩
  · intro h
    unfold update_post_status
    refine List.mem_map.mpr ⟨p, hp, ?_⟩
    simp [h]
  · intro h
    exact mem_update_post_status_other store pid st sa fb er p hp h

/-- Witness for C10: overwriting a post already in terminal status `sent`
to `failed` with the defaults clears `sent_at` and `fb_post_id`. -/
theorem update_post_status_spec_witness :
    { sentPost with status := "failed", sent_at := (none : Option Nat),
                    fb_post_id := (none : Option String),
                    error := some "late failure" } ∈
      update_post_status [sentPost] "ef56ab78" "failed" none none
        (some "late failure") :=
  (update_post_status_spec [sentPost] "ef56ab78" "failed" none none
      (some "late failure") sentPost (by decide)).1 (by decide)

/-! Helper lemmas about `_register_pending_posts`. -/

/-- Job ids are namespaced post ids, so equal job ids mean equal post
ids. -/
theorem post_job_id_inj (a b : String) (h : "post_" ++ a = "post_" ++ b) :
    a = b := by
  have hd := congrArg String.data h
  simp only [String.data_append] at hd
  exact String.ext (List.append_cancel_left hd)

/-- A job already in the registry survives a reconcile run untouched:
`_register_pending_posts` only ever adds jobs under ids it found
absent. -/
theorem reg_preserves_found (page tok : String) (now : Nat)
    (pending : List Post) :
    ∀ (sched : Registry) (jid : String) (e : JobEntry),
      get_job sched jid = some e →
      get_job (_register_pending_posts sched page tok pending now).1 jid =
        some e := by
  induction pending with
  | nil =>
    intro sched jid e h
    simpa [_register_pending_posts] using h
  | cons q rest ih =>
    intro sched jid e h
    cases hj : get_job sched ("post_" ++ q.id) with
    | some e' =>
      simp only [_register_pending_posts, hj]
      exact ih sched jid e h
    | none =>
      have hne : (("post_" ++ q.id) == jid) = false := by
        refine beq_eq_false_iff_ne.mpr (fun heq => ?_)
        rw [heq, h] at hj
        exact Option.noConfusion hj
      simp only [_register_pending_posts, hj]
      refine ih _ jid e ?_
      simp only [get_job, add_job, List.find?_cons, hne]
      exact h

/-- After a reconcile run, every post of the processed pending list has a
job registered under its id. -/
theorem reg_registers_mem (page tok : String) (now : Nat)
    (pending : List Post) :
    ∀ (sched : Registry) (q : Post), q ∈ pending →
      (get_job (_register_pending_posts sched page tok pending now).1
        ("post_" ++ q.id)).isSome := by
  induction pending with
  | nil =>
    intro sched q h
    exact absurd h (List.not_mem_nil q)
  | cons p rest ih =>
    intro sched q hq
    cases hj : get_job sched ("post_" ++ p.id) with
    | some e =>
      simp only [_register_pending_posts, hj]
      rcases List.mem_cons.mp hq with rfl | hq'
      · rw [reg_preserves_found page tok now rest sched _ e hj]
        rfl
      · exact ih sched q hq'
    | none =>
      simp only [_register_pending_posts, hj]
      rcases List.mem_cons.mp hq with rfl | hq'
      · have hfound : get_job
            (add_job sched
              { job_id := "post_" ++ q.id,
                run_date := if q.scheduled_time ≤ now then now
                            else q.scheduled_time,
                post_id := q.id, page_id := page, access_token := tok })
            ("post_" ++ q.id) =
            some { job_id := "post_" ++ q.id,
                   run_date := if q.scheduled_time ≤ now then now
                               else q.scheduled_time,
                   post_id := q.id, page_id := page,
                   access_token := tok } := by
          simp [get_job, add_job, List.find?_cons]
        rw [reg_preserves_found page tok now rest _ _ _ hfound]
        rfl
      · exact ih _ q hq'

/-- A reconcile run over a pending list whose job ids are all present in
the registry is a no-op returning count 0. -/
theorem reg_noop_of_all_registered (page tok : String) (now : Nat)
    (pending : List Post) (sched : Registry)
    (h : ∀ q ∈ pending, (get_job sched ("post_" ++ q.id)).isSome) :
    _register_pending_posts sched page tok pending now = (sched, 0) := by
  induction pending with
  | nil => rfl
  | cons p rest ih =>
    obtain ⟨e, he⟩ := Option.isSome_iff_exists.mp
      (h p (List.mem_cons_self p rest))
    simp only [_register_pending_posts, he]
    exact ih (fun q hq => h q (List.mem_cons_of_mem p hq))

/-- C4: Reconcile is idempotent. After one `_register_pending_posts` run,
running it again registers zero new jobs and leaves the registry
unchanged — and this holds for any second pending list whose post ids
all occur in the first one, since the duplicate guard is
`scheduler.get_job` membership of the post's job id, never a payload
comparison. -/
theorem reconcile_idempotent (sched : Registry) (page tok : String)
    (pending : List Post) (now now2 : Nat) :
    (∀ pending2 : List Post,
      (∀ q ∈ pending2, ∃ p ∈ pending, q.id = p.id) →
      _register_pending_posts
          (_register_pending_posts sched page tok pending now).1 page tok
          pending2 now2 =
        ((_register_pending_posts sched page tok pending now).1, 0)) ∧
    _register_pending_posts
        (_register_pending_posts sched page tok pending now).1 page tok
        pending now2 =
      ((_register_pending_posts sched page tok pending now).1, 0) := by
  have key : ∀ pending2 : List Post,
      (∀ q ∈ pending2, ∃ p ∈ pending, q.id = p.id) →
      _register_pending_posts
          (_register_pending_posts sched page tok pending now).1 page tok
          pending2 now2 =
        ((_register_pending_posts sched page tok pending now).1, 0) := by
    intro pending2 hids
    refine reg_noop_of_all_registered page tok now2 pending2 _ ?_
    intro q hq
    obtain ⟨p, hp, hid⟩ := hids q hq
    rw [hid]
    exact reg_registers_mem page tok now pending sched p hp
  exact ⟨key, key pending (fun q hq => ⟨q, hq, rfl⟩)⟩

/-- A second concrete pending post. -/
def pendingPost2 : Post :=
  { id := "9f8e7d6c", message := "World", scheduled_time := 30,
    status := "pending", created_at := 1, sent_at := none,
    fb_post_id := none, error := none }

/-- The same post id as `pendingPost` carrying a different payload. -/
def pendingPostAlt : Post :=
  { id := "ab12cd34", message := "Other payload", scheduled_time := 999,
    status := "pending", created_at := 2, sent_at := none,
    fb_post_id := none, error := none }

/-- Witness for C4 at a concrete run: the second call registers nothing,
even when the payload under the registered id changed. -/
theorem reconcile_idempotent_witness :
    _register_pending_posts
        (_register_pending_posts [] "pg" "tok" [pendingPost, pendingPost2]
          50).1 "pg" "tok" [pendingPostAlt, pendingPost2] 60 =
      ((_register_pending_posts [] "pg" "tok" [pendingPost, pendingPost2]
          50).1, 0) :=
  (reconcile_idempotent [] "pg" "tok" [pendingPost, pendingPost2] 50 60).1
    [pendingPostAlt, pendingPost2] (by decide)

/-- Over a pending list with distinct post ids, a post whose job id was
absent from the registry ends the reconcile run registered with exactly
the entry the code builds: fire at `now` when overdue, at
`scheduled_time` otherwise, with the callback arguments
(post id, page id, fallback token). -/
theorem reg_registers_new (page tok : String) (now : Nat) :
    ∀ (pending : List Post) (sched : Registry) (p : Post),
      (pending.map Post.id).Nodup → p ∈ pending →
      get_job sched ("post_" ++ p.id) = none →
      get_job (_register_pending_posts sched page tok pending now).1
          ("post_" ++ p.id) =
        some { job_id := "post_" ++ p.id,
               run_date := if p.scheduled_time ≤ now then now
                           else p.scheduled_time,
               post_id := p.id, page_id := page, access_token := tok } := by
  intro pending
  induction pending with
  | nil =>
    intro sched p _ hp _
    exact absurd hp (List.not_mem_nil p)
  | cons q rest ih =>
    intro sched p hn hp habs
    have hn' : (rest.map Post.id).Nodup :=
      (List.nodup_cons.mp (by simpa using hn)).2
    have hnotin : q.id ∉ rest.map Post.id :=
      (List.nodup_cons.mp (by simpa using hn)).1
    rcases List.mem_cons.mp hp with rfl | hp'
    · simp only [_register_pending_posts, habs]
      have hfound : get_job
          (add_job sched
            { job_id := "post_" ++ p.id,
              run_date := if p.scheduled_time ≤ now then now
                          else p.scheduled_time,
              post_id := p.id, page_id := page, access_token := tok })
          ("post_" ++ p.id) =
          some { job_id := "post_" ++ p.id,
                 run_date := if p.scheduled_time ≤ now then now
                             else p.scheduled_time,
                 post_id := p.id, page_id := page,
                 access_token := tok } := by
        simp [get_job, add_job, List.find?_cons]
      exact reg_preserves_found page tok now rest _ _ _ hfound
    · have hqp : q.id ≠ p.id := by
        intro h
        exact hnotin (h ▸ List.mem_map_of_mem Post.id hp')
      have hjidne : (("post_" ++ q.id) == ("post_" ++ p.id)) = false :=
        beq_eq_false_iff_ne.mpr
          (fun h => hqp (post_job_id_inj q.id p.id h))
      cases hj : get_job sched ("post_" ++ q.id) with
      | some e =>
        simp only [_register_pending_posts, hj]
        exact ih sched p hn' hp' habs
      | none =>
        simp only [_register_pending_posts, hj]
        refine ih _ p hn' hp' ?_
        simp only [get_job, add_job, List.find?_cons, hjidne]
        exact habs

/-- Over a pending list with distinct post ids, the reconcile run's
return value counts exactly the posts whose job ids were absent from the
starting registry. -/
theorem reg_count (page tok : String) (now : Nat) :
    ∀ (pending : List Post) (sched : Registry),
      (pending.map Post.id).Nodup →
      (_register_pending_posts sched page tok pending now).2 =
        (pending.filter
          (fun q => (get_job sched ("post_" ++ q.id)).isNone)).length := by
  intro pending
  induction pending with
  | nil => intro sched _; rfl
  | cons p rest ih =>
    intro sched hn
    have hn' : (rest.map Post.id).Nodup :=
      (List.nodup_cons.mp (by simpa using hn)).2
    have hnotin : p.id ∉ rest.map Post.id :=
      (List.nodup_cons.mp (by simpa using hn)).1
    cases hj : get_job sched ("post_" ++ p.id) with
    | some e =>
      simp only [_register_pending_posts, hj]
      rw [ih sched hn']
      simp [List.filter_cons, hj]
    | none =>
      simp only [_register_pending_posts, hj]
      rw [ih _ hn']
      have hfilter : rest.filter
          (fun q => (get_job
            (add_job sched
              { job_id := "post_" ++ p.id,
                run_date := if p.scheduled_time ≤ now then now
                            else p.scheduled_time,
                post_id := p.id, page_id := page, access_token := tok })
            ("post_" ++ q.id)).isNone) =
          rest.filter
            (fun q => (get_job sched ("post_" ++ q.id)).isNone) := by
        refine List.filter_congr ?_
        intro q hq
        have hqp : p.id ≠ q.id := by
          intro h
          exact hnotin (h ▸ List.mem_map_of_mem Post.id hq)
        have hjidne : (("post_" ++ p.id) == ("post_" ++ q.id)) = false :=
          beq_eq_false_iff_ne.mpr
            (fun h => hqp (post_job_id_inj p.id q.id h))
        simp only [get_job, add_job, List.find?_cons, hjidne]
      rw [hfilter]
      simp [List.filter_cons, hj]

/-- C5: for a pending list with distinct post ids (the store's primary
key guarantees this), every pending post whose job id is not yet in the
registry gets a one-shot job registered under its id, firing at the
current time when `scheduled_time` is at or before now and at
`scheduled_time` otherwise, carrying the callback arguments
(post id, destination id, fallback credential); the run returns the
number of newly registered jobs. -/
theorem reconcile_registers (sched : Registry) (page tok : String)
    (pending : List Post) (now : Nat) (p : Post)
    (hn : (pending.map Post.id).Nodup) (hp : p ∈ pending)
    (habs : get_job sched ("post_" ++ p.id) = none) :
    get_job (_register_pending_posts sched page tok pending now).1
        ("post_" ++ p.id) =
      some { job_id := "post_" ++ p.id,
             run_date := if p.scheduled_time ≤ now then now
                         else p.scheduled_time,
             post_id := p.id, page_id := page, access_token := tok } ∧
    (_register_pending_posts sched page tok pending now).2 =
      (pending.filter
        (fun q => (get_job sched ("post_" ++ q.id)).isNone)).length :=
  ⟨reg_registers_new page tok now pending sched p hn hp habs,
   reg_count page tok now pending sched hn⟩

/-- Witness for C5 at a concrete run: one overdue post fires now, the
already registered other id is skipped, and the count is 1. -/
theorem reconcile_registers_witness :
    get_job (_register_pending_posts
        [{ job_id := "post_9f8e7d6c", run_date := 30,
           post_id := "9f8e7d6c", page_id := "pg", access_token := "tok" }]
        "pg" "tok" [pendingPost, pendingPost2] 200).1 "post_ab12cd34" =
      some { job_id := "post_ab12cd34", run_date := 200,
             post_id := "ab12cd34", page_id := "pg",
             access_token := "tok" } ∧
    (_register_pending_posts
        [{ job_id := "post_9f8e7d6c", run_date := 30,
           post_id := "9f8e7d6c", page_id := "pg", access_token := "tok" }]
        "pg" "tok" [pendingPost, pendingPost2] 200).2 = 1 := by
  have h := reconcile_registers
    [{ job_id := "post_9f8e7d6c", run_date := 30, post_id := "9f8e7d6c",
       page_id := "pg", access_token := "tok" }]
    "pg" "tok" [pendingPost, pendingPost2] 200 pendingPost
    (by decide) (by decide) (by decide)
  exact ⟨h.1, by rw [h.2]; decide⟩

/-- C9: `daemon_status` reports stopped when the PID file is absent;
with the file present and the recorded process alive it reports running
with that pid and keeps the file; with the file present and the process
dead it unlinks the stale file and reports stopped. -/
theorem daemon_status_spec (alive : Nat → Bool) (pid : Nat) :
    daemon_status none alive = (none, { running := false, pid := none }) ∧
    (alive pid = true →
      daemon_status (some pid) alive =
        (some pid, { running := true, pid := some pid })) ∧
    (alive pid = false →
      daemon_status (some pid) alive =
        (none, { running := false, pid := none })) := by
  refine ⟨rfl, ?_, ?_⟩ <;> intro h <;> simp [daemon_status, h]

/-- Witness for C9 at pid 4242 with a live probe and a dead probe. -/
theorem daemon_status_spec_witness :
    daemon_status (some 4242) (fun _ => true) =
      (some 4242, { running := true, pid := some 4242 }) ∧
    daemon_status (some 4242) (fun _ => false) =
      (none, { running := false, pid := none }) :=
  ⟨(daemon_status_spec (fun _ => true) 4242).2.1 rfl,
   (daemon_status_spec (fun _ => false) 4242).2.2 rfl⟩

/-- The success write of `_execute_post` keeps the store invariant when
the recorded remote id is present. -/
theorem store_inv_update_sent (store : Store) (pid : String) (now : Nat)
    (oid : Option String) (hinv : store_inv store)
    (hsome : oid.isSome) :
    store_inv (update_post_status store pid "sent" (some now) oid none) := by
  intro q hq
  unfold update_post_status at hq
  obtain ⟨r, hr, hfr⟩ := List.mem_map.mp hq
  by_cases h : r.id == pid
  · rw [if_pos h] at hfr
    subst hfr
    exact ⟨fun _ => ⟨rfl, hsome, rfl⟩,
           fun hst => absurd hst (by decide : ¬("sent" = "failed")),
           fun hst => absurd hst (by decide : ¬("sent" = "pending"))⟩
  · rw [if_neg h] at hfr
    subst hfr
    exact hinv r hr

/-- The failure write of `_execute_post` keeps the store invariant. -/
theorem store_inv_update_failed (store : Store) (pid e : String)
    (hinv : store_inv store) :
    store_inv (update_post_status store pid "failed" none none (some e)) := by
  intro q hq
  unfold update_post_status at hq
  obtain ⟨r, hr, hfr⟩ := List.mem_map.mp hq
  by_cases h : r.id == pid
  · rw [if_pos h] at hfr
    subst hfr
    exact ⟨fun hst => absurd hst (by decide : ¬("failed" = "sent")),
           fun _ => ⟨rfl, rfl, rfl⟩,
           fun hst => absurd hst (by decide : ¬("failed" = "pending"))⟩
  · rw [if_neg h] at hfr
    subst hfr
    exact hinv r hr

/-- C7: the data-model invariant — a `sent` row has `sent_at` and
`fb_post_id` populated and `error` unset, a `failed` row has `error`
populated and the other two unset, a `pending` row has none of the three
— is preserved by both mutating operations of the subsystem: `add_post`
(creation) and `_execute_post` (the only transition), the latter under
the Publisher contract that a success carries a remote post id. -/
theorem invariant_preserved (store : Store) (hinv : store_inv store) :
    (∀ msg ts now pid store' post,
      add_post store msg ts now pid = Except.ok (store', post) →
      store_inv store') ∧
    (∀ post_id page_id tok cfg env publish now,
      publisher_contract publish →
      store_inv
        (_execute_post store post_id page_id tok cfg env publish now)) := by
  constructor
  · intro msg ts now pid store' post h
    unfold add_post at h
    cases hp : parse_sched ts with
    | none =>
      rw [hp] at h
      exact absurd h (by simp)
    | some t =>
      rw [hp] at h
      simp only at h
      by_cases hle : t ≤ now
      · rw [if_pos hle] at h
        exact absurd h (by simp)
      · rw [if_neg hle] at h
        simp only [Except.ok.injEq, Prod.mk.injEq] at h
        obtain ⟨hs, _⟩ := h
        subst hs
        intro q hq
        rcases List.mem_cons.mp hq with rfl | hq'
        · exact ⟨fun hst => absurd hst (by decide : ¬("pending" = "sent")),
                 fun hst => absurd hst (by decide : ¬("pending" = "failed")),
                 fun _ => ⟨rfl, rfl, rfl⟩⟩
        · exact hinv q hq'
  · intro post_id page_id tok cfg env publish now hc
    unfold _execute_post
    cases hg : get_post store post_id with
    | none => exact hinv
    | some post =>
      by_cases hst : post.status = "pending"
      · have hb : (post.status != "pending") = false := by
          simp [hst]
        simp only [hb, Bool.false_eq_true, if_false]
        cases hpub : publish page_id (resolve_credential cfg env tok)
            post.message with
        | ok oid =>
          exact store_inv_update_sent store post_id now oid hinv
            (hc _ _ _ oid hpub)
        | error e =>
          exact store_inv_update_failed store post_id e hinv
      · have hb : (post.status != "pending") = true := bne_iff_ne.mpr hst
        simp only [hb, if_true]
        exact hinv

/-- Witness for C7: a creation into a store already holding a sent and a
pending post, and an execution over the same store with a conforming
publisher. -/
theorem invariant_preserved_witness :
    store_inv [{ id := "ab12cd34", message := "Hello",
                 scheduled_time := minuteRank 2025 2 15 14 30,
                 status := "pending",
                 created_at := minuteRank 2025 2 15 14 29,
                 sent_at := none, fb_post_id := none, error := none },
               sentPost, pendingPost] ∧
    store_inv (_execute_post [sentPost, pendingPost] "ab12cd34" "pg"
      "tok" none none (fun _ _ _ => Except.ok (some "999")) 120) := by
  constructor
  · exact (invariant_preserved [sentPost, pendingPost] (by decide)).1
      "Hello" "2025-02-15 14:30" (minuteRank 2025 2 15 14 29) "ab12cd34"
      ({ id := "ab12cd34", message := "Hello",
         scheduled_time := minuteRank 2025 2 15 14 30,
         status := "pending", created_at := minuteRank 2025 2 15 14 29,
         sent_at := none, fb_post_id := none, error := none } ::
        [sentPost, pendingPost])
      { id := "ab12cd34", message := "Hello",
        scheduled_time := minuteRank 2025 2 15 14 30,
        status := "pending", created_at := minuteRank 2025 2 15 14 29,
        sent_at := none, fb_post_id := none, error := none }
      rfl
  · exact (invariant_preserved [sentPost, pendingPost] (by decide)).2
      "ab12cd34" "pg" "tok" none none
      (fun _ _ _ => Except.ok (some "999")) 120
      (fun _ _ _ oid h => by
        injection h with h'
        rw [← h']
        rfl)

/-- Counterexample to C8 as stated: with no Config Store value, the
environment variable FB_ACCESS_TOKEN set to `"ENVTOKEN"`, and
fallback credential argument `"FALLBACK"`, the credential resolved at
execution time is `"ENVTOKEN"`, not the statically-configured
`fallback_credential` argument the claim names. -/
theorem credential_claim_counterexample :
    resolve_credential none (some "ENVTOKEN") "FALLBACK" = "ENVTOKEN" ∧
    "ENVTOKEN" ≠ "FALLBACK" := by
  exact ⟨rfl, by decide⟩

/-- C8 amended: at each execution the credential is resolved fresh from
the execution-time reads — the Config Store value when present and
non-empty; otherwise the process environment credential
(FB_ACCESS_TOKEN) when present and non-empty; otherwise the
`fallback_credential` argument. The final conjunct shows `_execute_post`
consults the Publisher only at that resolved credential: two publishers
agreeing there produce identical executions. -/
theorem credential_resolution (cfg env : Option String)
    (access_token : String) :
    (∀ v, cfg = some v → v ≠ "" →
      resolve_credential cfg env access_token = v) ∧
    ((cfg = none ∨ cfg = some "") → ∀ e, env = some e → e ≠ "" →
      resolve_credential cfg env access_token = e) ∧
    ((cfg = none ∨ cfg = some "") → (env = none ∨ env = some "") →
      resolve_credential cfg env access_token = access_token) ∧
    (∀ (store : Store) (post_id page_id : String) (f g : Publisher)
        (now : Nat),
      (∀ m, f page_id (resolve_credential cfg env access_token) m =
            g page_id (resolve_credential cfg env access_token) m) →
      _execute_post store post_id page_id access_token cfg env f now =
        _execute_post store post_id page_id access_token cfg env g now) := by
  refine ⟨?_, ?_, ?_, ?_⟩
  · intro v hv hne
    subst hv
    simp [resolve_credential, get_active_access_token, truthy, hne]
  · rintro (rfl | rfl) e rfl hne <;>
      simp [resolve_credential, get_active_access_token, truthy, hne]
  · rintro (rfl | rfl) (rfl | rfl) <;>
      simp [resolve_credential, get_active_access_token, truthy]
  · intro store post_id page_id f g now hfg
    unfold _execute_post
    cases hgp : get_post store post_id with
    | none => rfl
    | some post =>
      by_cases hst : post.status = "pending"
      · have hb : (post.status != "pending") = false := by simp [hst]
        simp only [hb, Bool.false_eq_true, if_false]
        rw [hfg post.message]
      · have hb : (post.status != "pending") = true := bne_iff_ne.mpr hst
        simp only [hb, if_true]

/-- Witness for the amended C8: each of the three resolution layers on a
concrete value, and publisher-irrelevance away from the resolved
credential on a concrete store. -/
theorem credential_resolution_witness :
    resolve_credential (some "DBTOKEN") (some "ENVTOKEN") "FALLBACK" =
      "DBTOKEN" ∧
    resolve_credential (some "") (some "ENVTOKEN") "FALLBACK" =
      "ENVTOKEN" ∧
    resolve_credential none none "FALLBACK" = "FALLBACK" ∧
    _execute_post [pendingPost] "ab12cd34" "pg" "FALLBACK"
        (some "DBTOKEN") none
        (fun _ tk _ => if tk == "DBTOKEN" then Except.ok (some "1")
                       else Except.error "unexpected token") 120 =
      _execute_post [pendingPost] "ab12cd34" "pg" "FALLBACK"
        (some "DBTOKEN") none (fun _ _ _ => Except.ok (some "1")) 120 :=
  ⟨(credential_resolution (some "DBTOKEN") (some "ENVTOKEN")
      "FALLBACK").1 "DBTOKEN" rfl (by decide),
   (credential_resolution (some "") (some "ENVTOKEN") "FALLBACK").2.1
      (Or.inr rfl) "ENVTOKEN" rfl (by decide),
   (credential_resolution none none "FALLBACK").2.2.1 (Or.inl rfl)
      (Or.inl rfl),
   (credential_resolution (some "DBTOKEN") none "FALLBACK").2.2.2
      [pendingPost] "ab12cd34" "pg" _ _ 120 (fun m => rfl)⟩

end AutoPost
